import Mathlib

/-!
Shallow embedding of collectd's `src/ipvs.c` (IPVS statistics plugin).

The plugin polls the kernel's IPVS tables once per collection interval:
it fetches the virtual-service table (`ipvs_get_services`), and for each
service its destination table (`ipvs_get_dests`), builds textual
identifiers (`get_pi`, `get_ti`) and dispatches `connections`,
`if_packets` and `if_octets` samples (`cipvs_submit_*`, `cipvs_read`).

Kernel and libc behaviour that the C code observes through
`getsockopt` / `malloc` is modelled by an explicit environment (`Env`);
the single mutable global `ipvs_info` is threaded as explicit state
(`IpvsInfo`).  Machine integers are `Nat`s with explicit `% 256`
byte extraction where the code extracts bytes; the model fixes a
little-endian host, so `ntohs`/`inet_ntoa` perform real byte swaps,
exactly as x86 glibc does.  `exit(3)` and the undefined behaviour of
dereferencing a NULL pointer are modelled as distinguished terminal
outcomes of a run (`Term.fatal`, `Term.crash`).
-/

namespace Ipvs

/-! ## Numeric constants from the C headers -/

/-- IPPROTO_TCP from `<netinet/in.h>`. -/
def IPPROTO_TCP : Nat := 6

/-- IPPROTO_UDP from `<netinet/in.h>`. -/
def IPPROTO_UDP : Nat := 17

/-- DATA_MAX_NAME_LEN from collectd's `plugin.h`: capacity of the
`pi`/`ti` identifier buffers. -/
def DATA_MAX_NAME_LEN : Nat := 64

/-! ## Decimal rendering (the `%u` conversions of `snprintf`) -/

/-- Decimal digit character; callers only pass `d < 10`. -/
def digitChar (d : Nat) : Char :=
  match d with
  | 0 => '0' | 1 => '1' | 2 => '2' | 3 => '3' | 4 => '4'
  | 5 => '5' | 6 => '6' | 7 => '7' | 8 => '8' | _ => '9'

/-- Fuel-driven decimal rendering, most significant digit first.
`fuel` only bounds the recursion; any `fuel > n` gives the digits of `n`. -/
def decChars (fuel n : Nat) (acc : List Char) : List Char :=
  match fuel with
  | 0 => acc
  | fuel' + 1 =>
    if n < 10 then digitChar n :: acc
    else decChars fuel' (n / 10) (digitChar (n % 10) :: acc)

/-- Decimal digits of `n`, as `snprintf`'s `%u` renders them. -/
def uDec (n : Nat) : List Char := decChars (n + 1) n []

/-- Numeric value of a digit character. -/
def charVal (c : Char) : Nat := c.toNat - 48

/-- Value of a most-significant-first digit string. -/
def decVal (l : List Char) : Nat := l.foldl (fun a c => 10 * a + charVal c) 0

/-! ## Byte-order helpers (little-endian host) -/

/-- ntohs on a little-endian host: swap the two bytes of a 16-bit value. -/
def ntohs (p : Nat) : Nat := (p % 256) * 256 + (p / 256 % 256)

/-- inet_ntoa: dotted-decimal rendering of the four bytes of `in_addr.s_addr`
in memory order (least significant byte first on a little-endian host;
the field holds the address in network byte order). -/
def ntoaChars (a : Nat) : List Char :=
  uDec (a % 256) ++ '.' :: uDec (a / 256 % 256) ++ '.' ::
    uDec (a / 65536 % 256) ++ '.' :: uDec (a / 16777216 % 256)

/-! ## Data model: kernel structures -/

/-- The five counters of `struct ip_vs_stats_user` that the plugin reads. -/
structure Stats where
  conns    : Nat
  inpkts   : Nat
  outpkts  : Nat
  inbytes  : Nat
  outbytes : Nat
deriving DecidableEq

/-- The fields of `struct ip_vs_service_entry` that the plugin reads.
`addr` is the raw 32-bit `s_addr` bit pattern (network byte order in
memory, read here as a little-endian integer); `port` likewise the raw
16-bit pattern. -/
structure ServiceEntry where
  protocol  : Nat
  addr      : Nat
  port      : Nat
  fwmark    : Nat
  num_dests : Nat
  stats     : Stats
deriving DecidableEq

/-- The fields of `struct ip_vs_dest_entry` that the plugin reads. -/
structure DestEntry where
  addr  : Nat
  port  : Nat
  stats : Stats
deriving DecidableEq

/-! ## Identifier builders (`get_pi`, `get_ti`) -/

/-- Protocol name chosen by `get_pi`:
`(se->protocol == IPPROTO_TCP) ? "TCP" : "UDP"`. -/
def protoChars (p : Nat) : List Char :=
  if p = IPPROTO_TCP then ['T', 'C', 'P'] else ['U', 'D', 'P']

/-- Characters written by `snprintf (pi, size, "%s_%s%u", inet_ntoa (addr),
proto, ntohs (se->port))`, before any truncation. -/
def piChars (se : ServiceEntry) : List Char :=
  ntoaChars se.addr ++ '_' :: (protoChars se.protocol ++ uDec (ntohs se.port))

/-- Characters written by `snprintf (ti, size, "%s_%u", inet_ntoa (addr),
ntohs (de->port))`, before any truncation. -/
def tiChars (de : DestEntry) : List Char :=
  ntoaChars de.addr ++ '_' :: uDec (ntohs de.port)

/-- The full (untruncated) service identifier as a string. -/
def piString (se : ServiceEntry) : String := ⟨piChars se⟩

/-- The full (untruncated) destination identifier as a string. -/
def tiString (de : DestEntry) : String := ⟨tiChars de⟩

/-- `get_pi (se, pi, size)`: `se = none` models a NULL entry pointer and
`pi = none` a NULL output buffer; both return 0 immediately, writing
nothing.  Otherwise `snprintf` formats the identifier; if `size <= len`
the result was truncated to `size - 1` characters, the truncated buffer
is logged and -1 returned.  Result: (return value, buffer contents after
the call, log lines). -/
def get_pi (se : Option ServiceEntry) (pi : Option Unit) (size : Nat) :
    Int × Option String × List String :=
  match se, pi with
  | none, _ => (0, none, [])
  | _, none => (0, none, [])
  | some se, some _ =>
    let s := piChars se
    if size ≤ s.length then
      (-1, some ⟨s.take (size - 1)⟩,
       ["plugin instance truncated: " ++ String.mk (s.take (size - 1))])
    else (0, some ⟨s⟩, [])

/-- `get_ti (de, ti, size)`: same contract as `get_pi` for destinations. -/
def get_ti (de : Option DestEntry) (ti : Option Unit) (size : Nat) :
    Int × Option String × List String :=
  match de, ti with
  | none, _ => (0, none, [])
  | _, none => (0, none, [])
  | some de, some _ =>
    let s := tiChars de
    if size ≤ s.length then
      (-1, some ⟨s.take (size - 1)⟩,
       ["type instance truncated: " ++ String.mk (s.take (size - 1))])
    else (0, some ⟨s⟩, [])

/-! ## Execution environment

Everything the C code observes through the kernel (`getsockopt`) or
libc (`malloc`) during one poll cycle, made explicit.  `SockResult.err`
stands for a failing `getsockopt` (any non-zero return with its errno);
the `*Alloc` fields tell whether the corresponding `malloc` succeeds. -/

/-- Outcome of one `getsockopt` query. -/
inductive SockResult (α : Type) where
  | ok (a : α)
  | err
deriving DecidableEq

/-- One poll cycle's worth of kernel / libc behaviour. -/
structure Env where
  /-- IP_VS_SO_GET_INFO result: the kernel's current service count. -/
  getinfo       : SockResult Nat
  /-- whether `malloc` succeeds in `ipvs_get_services`. -/
  servicesAlloc : Bool
  /-- IP_VS_SO_GET_SERVICES result: the filled service table. -/
  getservices   : SockResult (List ServiceEntry)
  /-- whether `malloc` succeeds in `ipvs_get_dests` for a given service. -/
  destsAlloc    : ServiceEntry → Bool
  /-- IP_VS_SO_GET_DESTS result for a given service. -/
  getdests      : ServiceEntry → SockResult (List DestEntry)

/-- The single mutable global `static struct ip_vs_getinfo ipvs_info`;
only the field the plugin reads. -/
structure IpvsInfo where
  num_services : Nat
deriving DecidableEq

/-- Result of one of the two libipvs fetch helpers: `fatal code` models
`exit (code)`, `null` a NULL return after a logged `getsockopt` failure. -/
inductive FetchOut (α : Type) where
  | fatal (code : Nat)
  | null
  | ok (a : α)
deriving DecidableEq

/-! ## libipvs API (`ipvs_get_services`, `ipvs_get_dests`) -/

/-- Service count used to size the request buffer in `ipvs_get_services`:
the C computes `len = sizeof (*ret) + sizeof (struct ip_vs_service_entry)
* ipvs_info.num_services` (the byte constants are layout details; the
model exposes the count the length is proportional to). -/
def ipvs_get_services_sizing_count (info : IpvsInfo) : Nat :=
  info.num_services

/-- `ipvs_get_services ()`: sizes a buffer from the global
`ipvs_info.num_services`, exits with code 3 if `malloc` fails, returns
NULL (logging the error) when `getsockopt` fails, otherwise the filled
table.  The returned `IpvsInfo` is the global state after the call —
the C function never writes `ipvs_info`, so it is returned unchanged. -/
def ipvs_get_services (env : Env) (info : IpvsInfo) :
    FetchOut (List ServiceEntry) × List String × IpvsInfo :=
  if env.servicesAlloc = false then
    (.fatal 3, ["ipvs_get_services: Out of memory."], info)
  else
    match env.getservices with
    | .err => (.null, ["ipvs_get_services: getsockopt failed"], info)
    | .ok table => (.ok table, [], info)

/-- `ipvs_get_dests (se)`: sizes a buffer from `se->num_dests`, exits
with code 3 if `malloc` fails, returns NULL (logging) when `getsockopt`
fails, otherwise the filled destination table.  The request carries
`se`'s fwmark/protocol/addr/port/num_dests, so the kernel's answer is a
function of `se`. -/
def ipvs_get_dests (env : Env) (se : ServiceEntry) :
    FetchOut (List DestEntry) × List String :=
  if env.destsAlloc se = false then
    (.fatal 3, ["ipvs_get_dests: Out of memory."])
  else
    match env.getdests se with
    | .err => (.null, ["ipvs_get_dests: getsockopt() failed"])
    | .ok dl => (.ok dl, [])

/-! ## Metric emission -/

/-- One dispatched value list: the dispatch name (`"connections"`,
`"if_packets"`, `"if_octets"`), the two instance levels and the values.
Host, timestamp and interval are filled from globals the core does not
compute; they are omitted. -/
structure Sample where
  typ             : String
  plugin_instance : String
  type_instance   : String
  values          : List Nat
deriving DecidableEq

/-- `cipvs_submit_connections (pi, ti, value)`: one-counter sample;
a NULL `ti` becomes the literal `"total"`. -/
def cipvs_submit_connections (pi : String) (ti : Option String)
    (value : Nat) : Sample :=
  ⟨"connections", pi, ti.getD "total", [value]⟩

/-- `cipvs_submit_if (pi, t, ti, rx, tx)`: two-counter sample dispatched
under type `t`; a NULL `ti` becomes the literal `"total"`. -/
def cipvs_submit_if (pi : String) (t : String) (ti : Option String)
    (rx tx : Nat) : Sample :=
  ⟨t, pi, ti.getD "total", [rx, tx]⟩

/-- Terminal status of a run: a normal return value, `exit (code)`, or
the undefined behaviour of dereferencing a NULL pointer. -/
inductive Term where
  | ok (ret : Int)
  | fatal (code : Nat)
  | crash
deriving DecidableEq

/-- Observable outcome of a (partial) run: the samples dispatched, the
errors logged, and how the run ended. -/
structure Run where
  samples : List Sample
  logs    : List String
  term    : Term
deriving DecidableEq

/-- `cipvs_submit_dest (pi, de)`: build the type instance with `get_ti`
into a DATA_MAX_NAME_LEN-sized stack buffer (capacity abstracted as
`cap`); on failure return having emitted nothing, otherwise emit the
three destination-level samples.  Result: (samples, logs). -/
def cipvs_submit_dest (cap : Nat) (pi : String) (de : DestEntry) :
    List Sample × List String :=
  let g := get_ti (some de) (some ()) cap
  if g.1 ≠ 0 then ([], g.2.2)
  else
    let ti := g.2.1.getD ""
    ([cipvs_submit_connections pi (some ti) de.stats.conns,
      cipvs_submit_if pi "if_packets" (some ti) de.stats.inpkts de.stats.outpkts,
      cipvs_submit_if pi "if_octets" (some ti) de.stats.inbytes de.stats.outbytes],
     g.2.2)

/-- Body of `cipvs_submit_service` after the `ipvs_get_dests` call:
build `pi` with `get_pi` (return on failure, emitting nothing), emit the
three service-level samples, then iterate
`for (i = 0; i < dests->num_dests; ++i)`.  `dests = none` models the
NULL pointer returned by a failed fetch: the loop bound reads
`dests->num_dests` from NULL, which is a crash. -/
def cipvs_submit_service_go (cap : Nat) (se : ServiceEntry)
    (dlogs : List String) (dests : Option (List DestEntry)) : Run :=
  let g := get_pi (some se) (some ()) cap
  if g.1 ≠ 0 then ⟨[], dlogs ++ g.2.2, .ok 0⟩
  else
    let pi := g.2.1.getD ""
    let svc := [cipvs_submit_connections pi none se.stats.conns,
                cipvs_submit_if pi "if_packets" none se.stats.inpkts se.stats.outpkts,
                cipvs_submit_if pi "if_octets" none se.stats.inbytes se.stats.outbytes]
    match dests with
    | none => ⟨svc, dlogs ++ g.2.2, .crash⟩
    | some dl =>
      let outs := dl.map (cipvs_submit_dest cap pi)
      ⟨svc ++ (outs.map Prod.fst).flatten,
       dlogs ++ g.2.2 ++ (outs.map Prod.snd).flatten, .ok 0⟩

/-- `cipvs_submit_service (se)` with the identifier capacity abstracted:
fetch the destination table first (exit propagates), then run the body. -/
def cipvs_submit_serviceCap (cap : Nat) (env : Env) (se : ServiceEntry) : Run :=
  let d := ipvs_get_dests env se
  match d.1 with
  | .fatal c => ⟨[], d.2, .fatal c⟩
  | .null => cipvs_submit_service_go cap se d.2 none
  | .ok dl => cipvs_submit_service_go cap se d.2 (some dl)

/-- The `for (i = 0; i < services->num_services; ++i)` loop of
`cipvs_read`: process services in order, stopping if a service's
processing exits or crashes. -/
def cipvs_submit_servicesCap (cap : Nat) (env : Env) :
    List ServiceEntry → Run
  | [] => ⟨[], [], .ok 0⟩
  | se :: rest =>
    let r := cipvs_submit_serviceCap cap env se
    match r.term with
    | .ok _ =>
      let r' := cipvs_submit_servicesCap cap env rest
      ⟨r.samples ++ r'.samples, r.logs ++ r'.logs, r'.term⟩
    | t => ⟨r.samples, r.logs, t⟩

/-- `cipvs_read ()` with the identifier capacity abstracted: fetch the
service table (return -1 when it fails, propagate `exit`), then submit
every service and return 0. -/
def cipvs_readCap (cap : Nat) (env : Env) (info : IpvsInfo) : Run :=
  let g := ipvs_get_services env info
  match g.1 with
  | .fatal c => ⟨[], g.2.1, .fatal c⟩
  | .null => ⟨[], g.2.1, .ok (-1)⟩
  | .ok table =>
    let r := cipvs_submit_servicesCap cap env table
    ⟨r.samples, g.2.1 ++ r.logs,
     match r.term with | .ok _ => .ok 0 | t => t⟩

/-- `cipvs_submit_service` exactly as compiled: capacity
DATA_MAX_NAME_LEN. -/
def cipvs_submit_service (env : Env) (se : ServiceEntry) : Run :=
  cipvs_submit_serviceCap DATA_MAX_NAME_LEN env se

/-- `cipvs_read` exactly as compiled: capacity DATA_MAX_NAME_LEN. -/
def cipvs_read (env : Env) (info : IpvsInfo) : Run :=
  cipvs_readCap DATA_MAX_NAME_LEN env info

/-- `cipvs_init ()`: open the raw socket (outcome `socketOk`), then
fetch the global info into `ipvs_info`.  Returns the plugin return code
and the global `ipvs_info` state established (none when initialization
failed before the info was stored). -/
def cipvs_init (env : Env) (socketOk : Bool) : Int × Option IpvsInfo :=
  if socketOk = false then (-1, none)
  else
    match env.getinfo with
    | .err => (-1, none)
    | .ok n => (0, some ⟨n⟩)

/-- The refreshing behaviour the specification describes for the sizing
count: after a service-table fetch returns a table, the count for the
next sizing is the fetched table's service count.  Stated from the
spec's words, for comparison with `ipvs_get_services` (which returns
the global info unchanged). -/
def spec_refreshed_info (fetched : List ServiceEntry) : IpvsInfo :=
  ⟨fetched.length⟩

/-! ## Concrete inputs used by the closed theorems -/

/-- Counters used by the round-trip scenario of the specification. -/
def stats9 : Stats := ⟨5, 10, 20, 100, 200⟩

/-- Service `{TCP, 10.0.0.1, port 80}`: `s_addr` bytes 10,0,0,1 read as a
little-endian integer are 16777226; port bytes 0,80 are 20480. -/
def svc9 : ServiceEntry := ⟨IPPROTO_TCP, 16777226, 20480, 0, 1, stats9⟩

/-- Destination `{10.0.0.2, port 8080}`: bytes 10,0,0,2 are 33554442;
port bytes 31,144 are 36895. -/
def dst9 : DestEntry := ⟨33554442, 36895, stats9⟩

/-- Environment for the round-trip scenario: one service, one
destination, every query succeeds. -/
def env9 : Env := ⟨.ok 1, true, .ok [svc9], fun _ => true, fun _ => .ok [dst9]⟩

/-- A second service `{TCP, 10.0.0.3, port 80}` with distinct counters. -/
def svcB : ServiceEntry := ⟨IPPROTO_TCP, 50331658, 20480, 0, 0, ⟨7, 1, 2, 3, 4⟩⟩

/-- Environment in which the destination fetch for `svc9` fails
(`getsockopt` error, NULL return) while everything else succeeds. -/
def envDestFail : Env :=
  ⟨.ok 2, true, .ok [svc9, svcB], fun _ => true,
   fun se => if se = svc9 then .err else .ok []⟩

/-- Environment whose service-table fetch returns five entries. -/
def envFive : Env :=
  ⟨.ok 1, true, .ok (List.replicate 5 svc9), fun _ => true, fun _ => .ok []⟩

/-- A destination sharing `dst9`'s address but with a different port. -/
def dstC : DestEntry := ⟨33554442, 20480, stats9⟩

/-- Environment whose service-table `getsockopt` fails. -/
def envSvcFail : Env := ⟨.ok 0, true, .err, fun _ => true, fun _ => .ok []⟩

/-- Environment in which the service-table `malloc` fails. -/
def envNoMemSvc : Env := ⟨.ok 0, false, .ok [], fun _ => true, fun _ => .ok []⟩

/-- Environment in which the destination-table `malloc` fails. -/
def envNoMemDest : Env :=
  ⟨.ok 0, true, .ok [svc9], fun _ => false, fun _ => .ok []⟩

/-! ## Decimal rendering lemmas -/

/-- Every character produced by `digitChar` is a decimal digit. -/
theorem digitChar_isDigit (d : Nat) : (digitChar d).isDigit = true := by
  unfold digitChar
  split <;> rfl

/-- Numeric value of a digit character, for digits. -/
theorem charVal_digitChar (d : Nat) (h : d < 10) :
    charVal (digitChar d) = d := by
  interval_cases d <;> rfl

/-- The fuel argument of `decChars` is irrelevant once it exceeds `n`. -/
theorem decChars_fuel :
    ∀ (f₁ f₂ n : Nat) (acc : List Char), n < f₁ → n < f₂ →
      decChars f₁ n acc = decChars f₂ n acc := by
  intro f₁
  induction f₁ with
  | zero => intro f₂ n acc h1 _; omega
  | succ f ih =>
    intro f₂ n acc h1 h2
    match f₂ with
    | 0 => omega
    | f₂' + 1 =>
      simp only [decChars]
      by_cases hn : n < 10
      · simp [hn]
      · simp only [hn, if_false]
        exact ih f₂' (n / 10) _ (by omega) (by omega)

/-- The accumulator of `decChars` is just appended to the result. -/
theorem decChars_acc :
    ∀ (f n : Nat) (acc : List Char),
      decChars f n acc = decChars f n [] ++ acc := by
  intro f
  induction f with
  | zero => intro n acc; simp [decChars]
  | succ f ih =>
    intro n acc
    simp only [decChars]
    by_cases hn : n < 10
    · simp [hn]
    · simp only [hn, if_false]
      rw [ih (n / 10) (digitChar (n % 10) :: acc),
          ih (n / 10) [digitChar (n % 10)]]
      simp

/-- Folding the decimal-value step from an arbitrary seed. -/
theorem decVal_foldl_shift (l : List Char) :
    ∀ a : Nat, l.foldl (fun a c => 10 * a + charVal c) a
      = a * 10 ^ l.length + decVal l := by
  induction l with
  | nil => intro a; simp [decVal]
  | cons c t ih =>
    intro a
    simp only [List.foldl_cons, List.length_cons, decVal] at *
    rw [ih (10 * a + charVal c),
        show (10 : Nat) * 0 + charVal c = charVal c from by omega,
        ih (charVal c)]
    ring

/-- Decimal value of a concatenation. -/
theorem decVal_append (xs ys : List Char) :
    decVal (xs ++ ys) = decVal xs * 10 ^ ys.length + decVal ys := by
  simp only [decVal, List.foldl_append]
  exact decVal_foldl_shift ys (decVal xs)

/-- `decChars` really renders `n` in decimal: its value is `n`. -/
theorem decVal_decChars :
    ∀ (f n : Nat), n < f → decVal (decChars f n []) = n := by
  intro f
  induction f with
  | zero => intro n h; omega
  | succ f ih =>
    intro n h
    simp only [decChars]
    by_cases hn : n < 10
    · simp [hn, decVal, charVal_digitChar n hn]
    · simp only [hn, if_false]
      rw [decChars_acc f (n / 10) [digitChar (n % 10)],
          decVal_append]
      rw [ih (n / 10) (by omega)]
      simp [decVal, charVal_digitChar (n % 10) (by omega)]
      omega

/-- Round trip for the rendered digits of `n`. -/
theorem decVal_uDec (n : Nat) : decVal (uDec n) = n :=
  decVal_decChars (n + 1) n (Nat.lt_succ_self n)

/-- Decimal rendering is injective. -/
theorem uDec_inj {m n : Nat} (h : uDec m = uDec n) : m = n := by
  have := congrArg decVal h
  rwa [decVal_uDec, decVal_uDec] at this

/-- Every character of `decChars` comes from the accumulator or is a
digit. -/
theorem mem_decChars :
    ∀ (f n : Nat) (acc : List Char) (c : Char),
      c ∈ decChars f n acc → c ∈ acc ∨ c.isDigit = true := by
  intro f
  induction f with
  | zero => intro n acc c h; exact Or.inl h
  | succ f ih =>
    intro n acc c h
    simp only [decChars] at h
    by_cases hn : n < 10
    · simp only [hn, if_true] at h
      rcases List.mem_cons.mp h with h | h
      · exact Or.inr (h ▸ digitChar_isDigit n)
      · exact Or.inl h
    · simp only [hn, if_false] at h
      rcases ih (n / 10) _ c h with h' | h'
      · rcases List.mem_cons.mp h' with h'' | h''
        · exact Or.inr (h'' ▸ digitChar_isDigit (n % 10))
        · exact Or.inl h''
      · exact Or.inr h'

/-- Every character of a rendered decimal is a digit. -/
theorem uDec_isDigit {n : Nat} {c : Char} (h : c ∈ uDec n) :
    c.isDigit = true := by
  rcases mem_decChars (n + 1) n [] c h with h' | h'
  · simp at h'
  · exact h'

/-- Rendered decimals contain no underscore. -/
theorem uDec_ne_underscore {n : Nat} {c : Char} (h : c ∈ uDec n) :
    c ≠ '_' := by
  intro hc
  have := uDec_isDigit h
  rw [hc] at this
  simp at this

/-- Rendered decimals contain no dot. -/
theorem uDec_ne_dot {n : Nat} {c : Char} (h : c ∈ uDec n) :
    c ≠ '.' := by
  intro hc
  have := uDec_isDigit h
  rw [hc] at this
  simp at this

/-- Splitting at a separator that occurs in neither prefix is
unambiguous. -/
theorem append_sep_inj {sep : Char} :
    ∀ (xs xs' ys ys' : List Char),
      (∀ c ∈ xs, c ≠ sep) → (∀ c ∈ xs', c ≠ sep) →
      xs ++ sep :: ys = xs' ++ sep :: ys' → xs = xs' ∧ ys = ys' := by
  intro xs
  induction xs with
  | nil =>
    intro xs' ys ys' _ h2 heq
    match xs' with
    | [] => simpa using heq
    | c :: t =>
      simp only [List.nil_append, List.cons_append, List.cons.injEq] at heq
      exact absurd heq.1.symm (h2 c (List.mem_cons_self c t))
  | cons c t ih =>
    intro xs' ys ys' h1 h2 heq
    match xs' with
    | [] =>
      simp only [List.cons_append, List.nil_append, List.cons.injEq] at heq
      exact absurd heq.1 (h1 c (List.mem_cons_self c t))
    | c' :: t' =>
      simp only [List.cons_append, List.cons.injEq] at heq
      obtain ⟨ht, hy⟩ := ih t' ys ys'
        (fun x hx => h1 x (List.mem_cons_of_mem c hx))
        (fun x hx => h2 x (List.mem_cons_of_mem c' hx)) heq.2
      exact ⟨by rw [heq.1, ht], hy⟩

/-! ## Dotted-decimal and identifier injectivity -/

/-- Right-nested normal form of `ntoaChars`. -/
theorem ntoaChars_eq (a : Nat) :
    ntoaChars a =
      uDec (a % 256) ++ '.' :: (uDec (a / 256 % 256) ++ '.' ::
        (uDec (a / 65536 % 256) ++ '.' :: uDec (a / 16777216 % 256))) := by
  simp [ntoaChars, List.append_assoc, List.cons_append]

/-- Dotted-decimal output never contains an underscore. -/
theorem ntoaChars_ne_underscore {a : Nat} {c : Char}
    (h : c ∈ ntoaChars a) : c ≠ '_' := by
  rw [ntoaChars_eq] at h
  rcases List.mem_append.mp h with h | h
  · exact uDec_ne_underscore h
  rcases List.mem_cons.mp h with h | h
  · subst h; decide
  rcases List.mem_append.mp h with h | h
  · exact uDec_ne_underscore h
  rcases List.mem_cons.mp h with h | h
  · subst h; decide
  rcases List.mem_append.mp h with h | h
  · exact uDec_ne_underscore h
  rcases List.mem_cons.mp h with h | h
  · subst h; decide
  exact uDec_ne_underscore h

/-- Dotted-decimal rendering of a 32-bit pattern is injective. -/
theorem ntoaChars_inj {a b : Nat} (ha : a < 4294967296)
    (hb : b < 4294967296) (h : ntoaChars a = ntoaChars b) : a = b := by
  rw [ntoaChars_eq, ntoaChars_eq] at h
  obtain ⟨h1, h2⟩ := append_sep_inj _ _ _ _
    (fun c hc => uDec_ne_dot hc) (fun c hc => uDec_ne_dot hc) h
  obtain ⟨h3, h4⟩ := append_sep_inj _ _ _ _
    (fun c hc => uDec_ne_dot hc) (fun c hc => uDec_ne_dot hc) h2
  obtain ⟨h5, h6⟩ := append_sep_inj _ _ _ _
    (fun c hc => uDec_ne_dot hc) (fun c hc => uDec_ne_dot hc) h4
  have e1 := uDec_inj h1
  have e2 := uDec_inj h3
  have e3 := uDec_inj h5
  have e4 := uDec_inj h6
  omega

/-- `ntohs` is injective on 16-bit patterns. -/
theorem ntohs_inj {p q : Nat} (hp : p < 65536) (hq : q < 65536)
    (h : ntohs p = ntohs q) : p = q := by
  unfold ntohs at h
  omega

/-- Both protocol names have three characters. -/
theorem protoChars_length (p : Nat) : (protoChars p).length = 3 := by
  unfold protoChars
  split <;> rfl

/-- The protocol name determines the protocol, for TCP and UDP. -/
theorem protoChars_inj {p q : Nat}
    (hp : p = IPPROTO_TCP ∨ p = IPPROTO_UDP)
    (hq : q = IPPROTO_TCP ∨ q = IPPROTO_UDP)
    (h : protoChars p = protoChars q) : p = q := by
  rcases hp with hp | hp <;> rcases hq with hq | hq <;>
    subst hp <;> subst hq <;> revert h <;> decide

/-- The service identifier determines its (protocol, address, port). -/
theorem piChars_inj {s1 s2 : ServiceEntry}
    (hp1 : s1.protocol = IPPROTO_TCP ∨ s1.protocol = IPPROTO_UDP)
    (hp2 : s2.protocol = IPPROTO_TCP ∨ s2.protocol = IPPROTO_UDP)
    (ha1 : s1.addr < 4294967296) (ha2 : s2.addr < 4294967296)
    (hq1 : s1.port < 65536) (hq2 : s2.port < 65536)
    (h : piChars s1 = piChars s2) :
    s1.protocol = s2.protocol ∧ s1.addr = s2.addr ∧ s1.port = s2.port := by
  unfold piChars at h
  obtain ⟨h1, h2⟩ := append_sep_inj _ _ _ _
    (fun c hc => ntoaChars_ne_underscore hc)
    (fun c hc => ntoaChars_ne_underscore hc) h
  obtain ⟨hpr, hdec⟩ := List.append_inj h2
    (by rw [protoChars_length, protoChars_length])
  exact ⟨protoChars_inj hp1 hp2 hpr, ntoaChars_inj ha1 ha2 h1,
    ntohs_inj hq1 hq2 (uDec_inj hdec)⟩

/-- The destination identifier determines its (address, port). -/
theorem tiChars_inj {d1 d2 : DestEntry}
    (ha1 : d1.addr < 4294967296) (ha2 : d2.addr < 4294967296)
    (hq1 : d1.port < 65536) (hq2 : d2.port < 65536)
    (h : tiChars d1 = tiChars d2) : d1.addr = d2.addr ∧ d1.port = d2.port := by
  unfold tiChars at h
  obtain ⟨h1, h2⟩ := append_sep_inj _ _ _ _
    (fun c hc => ntoaChars_ne_underscore hc)
    (fun c hc => ntoaChars_ne_underscore hc) h
  exact ⟨ntoaChars_inj ha1 ha2 h1, ntohs_inj hq1 hq2 (uDec_inj h2)⟩

/-! ## Length bounds: valid identifiers never hit the 64-byte capacity -/

/-- A decimal rendering of `n < 10 ^ k` has at most `k` digits. -/
theorem decChars_length :
    ∀ (f n k : Nat), n < f → n < 10 ^ k → 1 ≤ k →
      (decChars f n []).length ≤ k := by
  intro f
  induction f with
  | zero => intro n k h; omega
  | succ f ih =>
    intro n k hf hk h1
    simp only [decChars]
    by_cases hn : n < 10
    · simp only [hn, if_true, List.length_cons, List.length_nil]
      omega
    · simp only [hn, if_false]
      obtain ⟨k', rfl⟩ : ∃ k', k = k' + 1 := ⟨k - 1, by omega⟩
      have hk' : 1 ≤ k' := by
        rcases Nat.eq_zero_or_pos k' with h0 | h0
        · subst h0
          norm_num at hk
          omega
        · exact h0
      have hd : n / 10 < 10 ^ k' := by
        rw [Nat.div_lt_iff_lt_mul (by norm_num : (0 : Nat) < 10)]
        calc n < 10 ^ (k' + 1) := hk
          _ = 10 ^ k' * 10 := pow_succ 10 k'
      have := ih (n / 10) k' (by omega) hd hk'
      rw [decChars_acc f (n / 10) [digitChar (n % 10)]]
      simp only [List.length_append, List.length_cons, List.length_nil]
      omega

/-- Digit-count bound for `uDec`. -/
theorem uDec_length (n k : Nat) (hk : n < 10 ^ k) (h1 : 1 ≤ k) :
    (uDec n).length ≤ k :=
  decChars_length (n + 1) n k (Nat.lt_succ_self n) hk h1

/-- A byte renders in at most three digits. -/
theorem uDec_len3 (n : Nat) (h : n < 1000) : (uDec n).length ≤ 3 :=
  uDec_length n 3 (by norm_num; omega) (by norm_num)

/-- A 16-bit value renders in at most five digits. -/
theorem uDec_len5 (n : Nat) (h : n < 100000) : (uDec n).length ≤ 5 :=
  uDec_length n 5 (by norm_num; omega) (by norm_num)

/-- Dotted-decimal output is at most 15 characters. -/
theorem ntoaChars_length (a : Nat) : (ntoaChars a).length ≤ 15 := by
  have h1 := uDec_len3 (a % 256) (by omega)
  have h2 := uDec_len3 (a / 256 % 256) (by omega)
  have h3 := uDec_len3 (a / 65536 % 256) (by omega)
  have h4 := uDec_len3 (a / 16777216 % 256) (by omega)
  simp only [ntoaChars, List.length_append, List.length_cons]
  omega

/-- Ports are 16-bit, so `ntohs` stays below 100000. -/
theorem ntohs_lt (p : Nat) : ntohs p < 100000 := by
  unfold ntohs
  omega

/-- A service identifier is at most 24 characters. -/
theorem piChars_length (se : ServiceEntry) : (piChars se).length ≤ 24 := by
  have h1 := ntoaChars_length se.addr
  have h3 := uDec_len5 _ (ntohs_lt se.port)
  have h4 := protoChars_length se.protocol
  simp only [piChars, List.length_append, List.length_cons]
  omega

/-- A destination identifier is at most 21 characters. -/
theorem tiChars_length (de : DestEntry) : (tiChars de).length ≤ 21 := by
  have h1 := ntoaChars_length de.addr
  have h3 := uDec_len5 _ (ntohs_lt de.port)
  simp only [tiChars, List.length_append, List.length_cons]
  omega

/-- With the DATA_MAX_NAME_LEN buffer, `get_pi` never truncates: it
returns 0 and writes the full identifier. -/
theorem get_pi_no_trunc (se : ServiceEntry) :
    get_pi (some se) (some ()) DATA_MAX_NAME_LEN
      = (0, some (piString se), []) := by
  have h := piChars_length se
  simp only [get_pi, DATA_MAX_NAME_LEN, piString]
  rw [if_neg (by omega)]

/-- With the DATA_MAX_NAME_LEN buffer, `get_ti` never truncates: it
returns 0 and writes the full identifier. -/
theorem get_ti_no_trunc (de : DestEntry) :
    get_ti (some de) (some ()) DATA_MAX_NAME_LEN
      = (0, some (tiString de), []) := by
  have h := tiChars_length de
  simp only [get_ti, DATA_MAX_NAME_LEN, tiString]
  rw [if_neg (by omega)]

/-! ## Behaviour of the emission pipeline -/

/-- An undersized buffer makes `get_pi` truncate, log and return -1. -/
theorem get_pi_trunc (se : ServiceEntry) {cap : Nat}
    (h : cap ≤ (piChars se).length) :
    get_pi (some se) (some ()) cap
      = (-1, some ⟨(piChars se).take (cap - 1)⟩,
         ["plugin instance truncated: "
           ++ String.mk ((piChars se).take (cap - 1))]) := by
  simp only [get_pi]
  rw [if_pos h]

/-- An undersized buffer makes `get_ti` truncate, log and return -1. -/
theorem get_ti_trunc (de : DestEntry) {cap : Nat}
    (h : cap ≤ (tiChars de).length) :
    get_ti (some de) (some ()) cap
      = (-1, some ⟨(tiChars de).take (cap - 1)⟩,
         ["type instance truncated: "
           ++ String.mk ((tiChars de).take (cap - 1))]) := by
  simp only [get_ti]
  rw [if_pos h]

/-- Every sample emitted by `cipvs_submit_dest` carries the service's
plugin instance `pi` unchanged. -/
theorem submit_dest_pi {cap : Nat} {pi : String} {de : DestEntry}
    {s : Sample} (h : s ∈ (cipvs_submit_dest cap pi de).1) :
    s.plugin_instance = pi := by
  simp only [cipvs_submit_dest] at h
  split at h
  · simp at h
  · simp only [List.mem_cons, List.not_mem_nil, or_false] at h
    rcases h with rfl | rfl | rfl <;> rfl

/-- Every sample emitted by the body of `cipvs_submit_service` carries
the plugin instance written by `get_pi`. -/
theorem submit_go_pi {cap : Nat} {se : ServiceEntry} {dlogs : List String}
    {dests : Option (List DestEntry)} {s : Sample}
    (h : s ∈ (cipvs_submit_service_go cap se dlogs dests).samples) :
    s.plugin_instance = (get_pi (some se) (some ()) cap).2.1.getD "" := by
  simp only [cipvs_submit_service_go] at h
  split at h
  · simp at h
  · split at h
    · simp only [List.mem_cons, List.not_mem_nil, or_false] at h
      rcases h with rfl | rfl | rfl <;> rfl
    · simp only [List.mem_append, List.mem_cons, List.not_mem_nil,
        or_false] at h
      rcases h with (rfl | rfl | rfl) | h
      · rfl
      · rfl
      · rfl
      · rw [List.mem_flatten] at h
        obtain ⟨l, hl, hs⟩ := h
        rw [List.mem_map] at hl
        obtain ⟨pair, hpair, rfl⟩ := hl
        rw [List.mem_map] at hpair
        obtain ⟨de, _, rfl⟩ := hpair
        exact submit_dest_pi hs

/-- Every sample emitted by `cipvs_submit_serviceCap` carries the plugin
instance written by `get_pi`. -/
theorem submit_serviceCap_pi {cap : Nat} {env : Env} {se : ServiceEntry}
    {s : Sample} (h : s ∈ (cipvs_submit_serviceCap cap env se).samples) :
    s.plugin_instance = (get_pi (some se) (some ()) cap).2.1.getD "" := by
  simp only [cipvs_submit_serviceCap] at h
  split at h
  · simp at h
  · exact submit_go_pi h
  · exact submit_go_pi h

/-- When its identifier truncates, the body of `cipvs_submit_service`
emits nothing, logs the truncation and returns normally. -/
theorem submit_go_trunc {cap : Nat} {se : ServiceEntry}
    (dlogs : List String) (dests : Option (List DestEntry))
    (h : cap ≤ (piChars se).length) :
    cipvs_submit_service_go cap se dlogs dests
      = ⟨[], dlogs ++ ["plugin instance truncated: "
          ++ String.mk ((piChars se).take (cap - 1))], .ok 0⟩ := by
  simp only [cipvs_submit_service_go, get_pi_trunc se h]
  norm_num

/-- When the destination fetch does not exit, `cipvs_submit_service`
ends with a normal return whenever the destination fetch did not return
NULL. -/
theorem submit_serviceCap_term_ok {cap : Nat} {env : Env}
    {se : ServiceEntry} (ha : env.destsAlloc se = true)
    (hd : env.getdests se ≠ .err) :
    (cipvs_submit_serviceCap cap env se).term = .ok 0 := by
  cases henv : env.getdests se with
  | err => exact absurd henv hd
  | ok dl =>
    simp only [cipvs_submit_serviceCap, ipvs_get_dests, ha, henv]
    simp only [Bool.true_eq_false, if_false]
    simp only [cipvs_submit_service_go]
    split
    · rfl
    · rfl

/-- A run over a service list in which every service's processing
returns normally itself returns normally. -/
theorem submit_servicesCap_term_ok {cap : Nat} {env : Env} :
    ∀ table : List ServiceEntry,
      (∀ s ∈ table, (cipvs_submit_serviceCap cap env s).term = .ok 0) →
      (cipvs_submit_servicesCap cap env table).term = .ok 0 := by
  intro table
  induction table with
  | nil => intro _; rfl
  | cons se rest ih =>
    intro h
    simp only [cipvs_submit_servicesCap, h se (List.mem_cons_self se rest)]
    exact ih fun s hs => h s (List.mem_cons_of_mem se hs)

/-! ## Claim theorems -/

/-- C1: the claim asserts that a failed destination fetch for a service
leaves the rest of the cycle unaffected and the cycle does not crash.
The code contradicts this: `cipvs_submit_service` never checks
`ipvs_get_dests` for NULL before reading `dests->num_dests`, so with a
two-service table whose first destination fetch fails, the cycle emits
the first service's three service-level samples and then crashes on the
NULL dereference, suppressing the second service's samples entirely. -/
theorem dest_fetch_failure_crashes_cycle :
    cipvs_read envDestFail ⟨2⟩
      = ⟨[⟨"connections", "10.0.0.1_TCP80", "total", [5]⟩,
          ⟨"if_packets", "10.0.0.1_TCP80", "total", [10, 20]⟩,
          ⟨"if_octets", "10.0.0.1_TCP80", "total", [100, 200]⟩],
         ["ipvs_get_dests: getsockopt() failed"], .crash⟩ := by
  decide

/-- C2: the identifier builders are injective: two valid services with
distinct (protocol, address, port) always get distinct service
identifiers, and two valid destinations with distinct (address, port)
always get distinct destination identifiers. -/
theorem identifier_builders_injective :
    ∀ (s1 s2 : ServiceEntry) (d1 d2 : DestEntry),
      s1.protocol = IPPROTO_TCP ∨ s1.protocol = IPPROTO_UDP →
      s2.protocol = IPPROTO_TCP ∨ s2.protocol = IPPROTO_UDP →
      s1.addr < 4294967296 → s2.addr < 4294967296 →
      s1.port < 65536 → s2.port < 65536 →
      d1.addr < 4294967296 → d2.addr < 4294967296 →
      d1.port < 65536 → d2.port < 65536 →
      ((s1.protocol, s1.addr, s1.port) ≠ (s2.protocol, s2.addr, s2.port) →
        piString s1 ≠ piString s2)
      ∧ ((d1.addr, d1.port) ≠ (d2.addr, d2.port) →
        tiString d1 ≠ tiString d2) := by
  intro s1 s2 d1 d2 hp1 hp2 ha1 ha2 hq1 hq2 hda1 hda2 hdq1 hdq2
  constructor
  · intro hne heq
    apply hne
    have hchars : piChars s1 = piChars s2 := congrArg String.data heq
    obtain ⟨e1, e2, e3⟩ := piChars_inj hp1 hp2 ha1 ha2 hq1 hq2 hchars
    simp [e1, e2, e3]
  · intro hne heq
    apply hne
    have hchars : tiChars d1 = tiChars d2 := congrArg String.data heq
    obtain ⟨e1, e2⟩ := tiChars_inj hda1 hda2 hdq1 hdq2 hchars
    simp [e1, e2]

/-- C2 witness: concrete distinct triples give distinct identifiers. -/
theorem identifier_builders_injective_witness :
    piString svc9 ≠ piString svcB ∧ tiString dst9 ≠ tiString dstC :=
  ⟨(identifier_builders_injective svc9 svcB dst9 dstC (by decide) (by decide)
      (by decide) (by decide) (by decide) (by decide) (by decide) (by decide)
      (by decide) (by decide)).1 (by decide),
   (identifier_builders_injective svc9 svcB dst9 dstC (by decide) (by decide)
      (by decide) (by decide) (by decide) (by decide) (by decide) (by decide)
      (by decide) (by decide)).2 (by decide)⟩

/-- C3: counterexample to the claim that the sizing count is refreshed
by each service-table fetch.  Starting from an initialization count of
1, a fetch that returns five services leaves the global info — and so
the next fetch's sizing count — at 1, not at the 5 the spec's refreshed
count would give. -/
theorem sizing_count_not_refreshed_counterexample :
    ipvs_get_services envFive ⟨1⟩ = (.ok (List.replicate 5 svc9), [], ⟨1⟩)
    ∧ spec_refreshed_info (List.replicate 5 svc9) = ⟨5⟩
    ∧ ipvs_get_services_sizing_count (ipvs_get_services envFive ⟨1⟩).2.2
        ≠ (spec_refreshed_info (List.replicate 5 svc9)).num_services := by
  decide

/-- C3 (amended): every service-table fetch sizes its buffer from the
service count stored by the one-shot global info fetch at
initialization; a service-table fetch never updates that count. -/
theorem sizing_count_fixed_at_init :
    ∀ (env : Env) (info : IpvsInfo) (n : Nat) (sockOk : Bool),
      (sockOk = true → env.getinfo = .ok n →
        cipvs_init env sockOk = (0, some ⟨n⟩))
      ∧ (ipvs_get_services env info).2.2 = info
      ∧ ipvs_get_services_sizing_count info = info.num_services := by
  intro env info n sockOk
  refine ⟨?_, ?_, rfl⟩
  · intro h1 h2
    simp [cipvs_init, h1, h2]
  · simp only [ipvs_get_services]
    split
    · rfl
    · split <;> rfl

/-- C3 witness: the amended claim at a concrete initialization and
fetch. -/
theorem sizing_count_fixed_at_init_witness :
    cipvs_init env9 true = (0, some ⟨1⟩)
    ∧ (ipvs_get_services env9 ⟨7⟩).2.2 = ⟨7⟩ :=
  ⟨(sizing_count_fixed_at_init env9 ⟨7⟩ 1 true).1 rfl rfl,
   (sizing_count_fixed_at_init env9 ⟨7⟩ 1 true).2.1⟩

/-- C4: with the DATA_MAX_NAME_LEN buffer, `get_pi` succeeds and writes
`{address}_{PROTO}{port}` — dotted-decimal address, upper-case protocol
name of a TCP/UDP entry, decimal port after conversion to host byte
order — and `get_ti` succeeds and writes `{address}_{port}`. -/
theorem identifier_format :
    ∀ (se : ServiceEntry) (de : DestEntry),
      (se.protocol = IPPROTO_TCP →
        get_pi (some se) (some ()) DATA_MAX_NAME_LEN
          = (0, some ⟨ntoaChars se.addr
              ++ '_' :: 'T' :: 'C' :: 'P' :: uDec (ntohs se.port)⟩, []))
      ∧ (se.protocol = IPPROTO_UDP →
        get_pi (some se) (some ()) DATA_MAX_NAME_LEN
          = (0, some ⟨ntoaChars se.addr
              ++ '_' :: 'U' :: 'D' :: 'P' :: uDec (ntohs se.port)⟩, []))
      ∧ get_ti (some de) (some ()) DATA_MAX_NAME_LEN
          = (0, some ⟨ntoaChars de.addr ++ '_' :: uDec (ntohs de.port)⟩,
             []) := by
  intro se de
  refine ⟨?_, ?_, ?_⟩
  · intro hp
    rw [get_pi_no_trunc se]
    simp [piString, piChars, protoChars, hp, IPPROTO_TCP]
  · intro hp
    rw [get_pi_no_trunc se]
    simp [piString, piChars, protoChars, hp, IPPROTO_UDP, IPPROTO_TCP]
  · rw [get_ti_no_trunc de]
    simp [tiString, tiChars]

/-- C4 witness: the format at the concrete TCP service and
destination. -/
theorem identifier_format_witness :
    svc9.protocol = IPPROTO_TCP
    ∧ get_pi (some svc9) (some ()) DATA_MAX_NAME_LEN
        = (0, some ⟨ntoaChars svc9.addr
            ++ '_' :: 'T' :: 'C' :: 'P' :: uDec (ntohs svc9.port)⟩, []) :=
  ⟨rfl, (identifier_format svc9 dst9).1 rfl⟩

/-- C5: when the service-table fetch fails (NULL from
`ipvs_get_services`), the cycle emits zero samples and `cipvs_read`
returns -1 without crashing. -/
theorem service_fetch_failure_empty_cycle :
    ∀ (env : Env) (info : IpvsInfo),
      env.servicesAlloc = true → env.getservices = .err →
      (cipvs_read env info).samples = []
      ∧ (cipvs_read env info).term = .ok (-1) := by
  intro env info h1 h2
  simp [cipvs_read, cipvs_readCap, ipvs_get_services, h1, h2]

/-- C5 witness: a concrete cycle whose service fetch fails. -/
theorem service_fetch_failure_empty_cycle_witness :
    (cipvs_read envSvcFail ⟨0⟩).samples = []
    ∧ (cipvs_read envSvcFail ⟨0⟩).term = .ok (-1) :=
  service_fetch_failure_empty_cycle envSvcFail ⟨0⟩ rfl rfl

/-- C6: a failed `malloc` while sizing either kernel response buffer is
fatal — both fetch helpers `exit (3)` instead of returning a
recoverable error, and the exit propagates out of the read cycle. -/
theorem alloc_failure_fatal :
    ∀ (env : Env) (info : IpvsInfo) (se : ServiceEntry),
      (env.servicesAlloc = false →
        (ipvs_get_services env info).1 = .fatal 3
        ∧ (cipvs_read env info).term = .fatal 3)
      ∧ (env.destsAlloc se = false →
        (ipvs_get_dests env se).1 = .fatal 3
        ∧ (cipvs_submit_service env se).term = .fatal 3) := by
  intro env info se
  constructor
  · intro h
    constructor
    · simp [ipvs_get_services, h]
    · simp [cipvs_read, cipvs_readCap, ipvs_get_services, h]
  · intro h
    constructor
    · simp [ipvs_get_dests, h]
    · simp [cipvs_submit_service, cipvs_submit_serviceCap,
        ipvs_get_dests, h]

/-- C6 witness: both allocation failures at concrete environments. -/
theorem alloc_failure_fatal_witness :
    (cipvs_read envNoMemSvc ⟨0⟩).term = .fatal 3
    ∧ (cipvs_submit_service envNoMemDest svc9).term = .fatal 3 :=
  ⟨((alloc_failure_fatal envNoMemSvc ⟨0⟩ svc9).1 rfl).2,
   ((alloc_failure_fatal envNoMemDest ⟨0⟩ svc9).2 rfl).2⟩

/-- C7: an identifier exceeding the buffer capacity makes the builder
report truncation (-1); only that entity's emission is skipped, the
failure is logged, the submit returns normally, and a cycle whose other
services behave keeps running and returns 0. -/
theorem truncation_skips_entity :
    ∀ (cap : Nat) (env : Env) (info : IpvsInfo) (se : ServiceEntry)
      (de : DestEntry) (pis : String),
      cap ≤ (piChars se).length →
      cap ≤ (tiChars de).length →
      env.destsAlloc se = true →
      (get_pi (some se) (some ()) cap).1 = -1
      ∧ (cipvs_submit_serviceCap cap env se).samples = []
      ∧ (cipvs_submit_serviceCap cap env se).term = .ok 0
      ∧ ("plugin instance truncated: "
          ++ String.mk ((piChars se).take (cap - 1)))
          ∈ (cipvs_submit_serviceCap cap env se).logs
      ∧ (get_ti (some de) (some ()) cap).1 = -1
      ∧ (cipvs_submit_dest cap pis de).1 = []
      ∧ ("type instance truncated: "
          ++ String.mk ((tiChars de).take (cap - 1)))
          ∈ (cipvs_submit_dest cap pis de).2
      ∧ (∀ table, env.getservices = .ok table → env.servicesAlloc = true →
          (∀ s ∈ table, env.destsAlloc s = true ∧ env.getdests s ≠ .err) →
          (cipvs_readCap cap env info).term = .ok 0) := by
  intro cap env info se de pis hpi hti ha
  have hsvc : (cipvs_submit_serviceCap cap env se).samples = []
      ∧ (cipvs_submit_serviceCap cap env se).term = .ok 0
      ∧ ("plugin instance truncated: "
          ++ String.mk ((piChars se).take (cap - 1)))
          ∈ (cipvs_submit_serviceCap cap env se).logs := by
    cases henv : env.getdests se with
    | err =>
      simp only [cipvs_submit_serviceCap, ipvs_get_dests, ha, henv,
        Bool.true_eq_false, if_false]
      rw [submit_go_trunc _ _ hpi]
      exact ⟨rfl, rfl, by simp⟩
    | ok dl =>
      simp only [cipvs_submit_serviceCap, ipvs_get_dests, ha, henv,
        Bool.true_eq_false, if_false]
      rw [submit_go_trunc _ _ hpi]
      exact ⟨rfl, rfl, by simp⟩
  have hdst : (cipvs_submit_dest cap pis de).1 = []
      ∧ ("type instance truncated: "
          ++ String.mk ((tiChars de).take (cap - 1)))
          ∈ (cipvs_submit_dest cap pis de).2 := by
    simp only [cipvs_submit_dest, get_ti_trunc de hti]
    norm_num
  refine ⟨by rw [get_pi_trunc se hpi], hsvc.1, hsvc.2.1, hsvc.2.2,
    by rw [get_ti_trunc de hti], hdst.1, hdst.2, ?_⟩
  intro table hgs hsa hall
  have hterm : (cipvs_submit_servicesCap cap env table).term = .ok 0 :=
    submit_servicesCap_term_ok table
      (fun s hs => submit_serviceCap_term_ok (hall s hs).1 (hall s hs).2)
  simp [cipvs_readCap, ipvs_get_services, hsa, hgs, hterm]

/-- C7 witness: with a 4-byte buffer the concrete identifiers truncate,
the entities are skipped and the cycle still returns 0. -/
theorem truncation_skips_entity_witness :
    (4 : Nat) ≤ (piChars svc9).length
    ∧ (cipvs_submit_serviceCap 4 env9 svc9).samples = []
    ∧ (cipvs_submit_dest 4 "x" dst9).1 = []
    ∧ (cipvs_readCap 4 env9 ⟨1⟩).term = .ok 0 :=
  ⟨by decide,
   (truncation_skips_entity 4 env9 ⟨1⟩ svc9 dst9 "x" (by decide) (by decide)
      (by decide)).2.1,
   (truncation_skips_entity 4 env9 ⟨1⟩ svc9 dst9 "x" (by decide) (by decide)
      (by decide)).2.2.2.2.2.1,
   (truncation_skips_entity 4 env9 ⟨1⟩ svc9 dst9 "x" (by decide) (by decide)
      (by decide)).2.2.2.2.2.2.2 [svc9] rfl rfl (by decide)⟩

/-- C8: every destination-level sample (type instance other than
"total") emitted while processing a service carries that service's own
identifier as its plugin instance. -/
theorem dest_sample_plugin_instance :
    ∀ (env : Env) (se : ServiceEntry) (s : Sample),
      s ∈ (cipvs_submit_service env se).samples →
      s.type_instance ≠ "total" →
      s.plugin_instance = piString se := by
  intro env se s hmem _
  unfold cipvs_submit_service at hmem
  rw [submit_serviceCap_pi hmem, get_pi_no_trunc se]
  rfl

/-- C8 witness: the concrete destination sample of the round-trip cycle
carries its parent service's identifier. -/
theorem dest_sample_plugin_instance_witness :
    (⟨"connections", "10.0.0.1_TCP80", "10.0.0.2_8080", [5]⟩ :
      Sample).plugin_instance = piString svc9 :=
  dest_sample_plugin_instance env9 svc9 _ (by decide) (by decide)

/-- C9: the round-trip scenario — one TCP service 10.0.0.1:80 with one
destination 10.0.0.2:8080, counters (5, 10, 20, 100, 200) — emits
exactly the three service-level samples with type instance "total" and
the three destination-level samples with type instance "10.0.0.2_8080",
all under plugin instance "10.0.0.1_TCP80", and returns 0. -/
theorem round_trip_emission :
    cipvs_read env9 ⟨1⟩
      = ⟨[⟨"connections", "10.0.0.1_TCP80", "total", [5]⟩,
          ⟨"if_packets", "10.0.0.1_TCP80", "total", [10, 20]⟩,
          ⟨"if_octets", "10.0.0.1_TCP80", "total", [100, 200]⟩,
          ⟨"connections", "10.0.0.1_TCP80", "10.0.0.2_8080", [5]⟩,
          ⟨"if_packets", "10.0.0.1_TCP80", "10.0.0.2_8080", [10, 20]⟩,
          ⟨"if_octets", "10.0.0.1_TCP80", "10.0.0.2_8080", [100, 200]⟩],
         [], .ok 0⟩ := by
  decide

/-- C10: a NULL entry pointer or NULL output buffer makes `get_pi` and
`get_ti` return 0 — the success code — while writing nothing, so a
caller that treats 0 as "identifier built" proceeds with an unwritten
buffer. -/
theorem null_pointer_returns_success :
    ∀ (se : ServiceEntry) (de : DestEntry) (buf : Option Unit) (size : Nat),
      get_pi none buf size = (0, none, [])
      ∧ get_pi (some se) none size = (0, none, [])
      ∧ get_ti none buf size = (0, none, [])
      ∧ get_ti (some de) none size = (0, none, []) := by
  intro se de buf size
  refine ⟨?_, rfl, ?_, rfl⟩ <;> cases buf <;> rfl

end Ipvs
